import Mathlib

/-!
Verification of bit7z wrapper utilities and the `BitArchiveReader` interface
contracts, shallowly embedded in Lean 4.

The embedded code comes from `src/internal/util.hpp` (integer helpers,
string/path shims, COM helpers) and from the interface contracts exercised by
`tests/src/test_bitarchivereader.cpp`.  The actual archive engine is an opaque
external collaborator; where a definition models behaviour that is not in the
sources (the engine, the C++ standard library, the COM smart pointers), its doc
comment says so explicitly.
-/

namespace Bit7z

/-! ## Integer model: `check_overflow` (src/internal/util.hpp, lines 86-89) -/

/-- `std::numeric_limits<int64_t>::max()`. -/
def int64Max : Int := 9223372036854775807

/-- `std::numeric_limits<int64_t>::min()`. -/
def int64Min : Int := -9223372036854775808

/-- The value `x` is representable as an `int64_t`. -/
def isInt64 (x : Int) : Prop := int64Min ≤ x ∧ x ≤ int64Max

instance (x : Int) : Decidable (isInt64 x) := by
  unfold isInt64
  infer_instance

/-- Embedding of `bit7z::check_overflow` from `src/internal/util.hpp`:
`((offset > 0) && (position > INT64_MAX - offset)) ||
 ((offset < 0) && (position < INT64_MIN - offset))`.
Both subtractions stay inside the `int64_t` range (proved below), so plain
`Int` arithmetic models the C++ evaluation exactly. -/
def check_overflow (position offset : Int) : Bool :=
  (decide (offset > 0) && decide (position > int64Max - offset)) ||
  (decide (offset < 0) && decide (position < int64Min - offset))

/-! ## Integer model: `cmp_less` family (src/internal/util.hpp, lines 94-137)

C++ integer types are modelled by a signedness flag and a bit width among the
standard widths 8/16/32/64.  Values are mathematical integers constrained to
the type's range; implicit conversions (integral promotion and the usual
arithmetic conversions applied by the built-in `<` operator) are modelled
explicitly, with two's-complement wrap-around where C++ converts values
modulo `2^width`. -/

/-- A standard C++ integer bit width. -/
inductive CppWidth where
  | w8
  | w16
  | w32
  | w64
deriving DecidableEq

/-- Number of bits of a width. -/
def CppWidth.bits : CppWidth → Nat
  | .w8 => 8
  | .w16 => 16
  | .w32 => 32
  | .w64 => 64

/-- A C++ integer type: signedness plus bit width. -/
structure CppIntType where
  signed : Bool
  width : CppWidth
deriving DecidableEq

/-- Smallest value of the type. -/
def CppIntType.minVal (t : CppIntType) : Int :=
  if t.signed then -(2 ^ (t.width.bits - 1)) else 0

/-- Largest value of the type. -/
def CppIntType.maxVal (t : CppIntType) : Int :=
  if t.signed then 2 ^ (t.width.bits - 1) - 1 else 2 ^ t.width.bits - 1

/-- The mathematical integer `x` is a value of type `t`. -/
def inRange (t : CppIntType) (x : Int) : Prop := t.minVal ≤ x ∧ x ≤ t.maxVal

instance (t : CppIntType) (x : Int) : Decidable (inRange t x) := by
  unfold inRange
  infer_instance

/-- C++ integer conversion of a mathematical value to type `t`
(two's-complement wrap-around, as performed on all conversion paths reached
by `cmp_less`; on those paths the value always fits, so the wrap is the
identity there). -/
def CppIntType.convert (t : CppIntType) (x : Int) : Int :=
  if t.signed then
    (x + 2 ^ (t.width.bits - 1)) % 2 ^ t.width.bits - 2 ^ (t.width.bits - 1)
  else
    x % 2 ^ t.width.bits

/-- C++ integral promotion: types of rank below `int` promote to `int`
(32-bit signed, which represents every 8/16-bit value); other types are
unchanged. -/
def promote (t : CppIntType) : CppIntType :=
  if t.width.bits < 32 then { signed := true, width := .w32 } else t

/-- The common type of the C++ usual arithmetic conversions, applied to two
already-promoted types (width 32 or 64).  With the standard widths: same
signedness takes the wider type; mixed signedness takes the unsigned type
when its width is at least the signed type's width, and otherwise the signed
type (which then represents every value of the unsigned type). -/
def commonType (ta tb : CppIntType) : CppIntType :=
  if ta.signed = tb.signed then
    if tb.width.bits ≤ ta.width.bits then ta else tb
  else if ta.signed then
    if ta.width.bits ≤ tb.width.bits then tb else ta
  else
    if tb.width.bits ≤ ta.width.bits then ta else tb

/-- The C++ built-in `a < b` between operands of integer types `ta` and `tb`:
both operands undergo integral promotion and then conversion to the common
type, and the converted values are compared. -/
def cppLess (ta tb : CppIntType) (a b : Int) : Bool :=
  let pa := promote ta
  let pb := promote tb
  let c := commonType pa pb
  decide (c.convert (pa.convert a) < c.convert (pb.convert b))

/-- `std::make_unsigned_t` on the modelled types. -/
def unsignedOf (t : CppIntType) : CppIntType := { signed := false, width := t.width }

/-- Embedding of `bit7z::cmp_less` from `src/internal/util.hpp` (the
`if constexpr` version; the C++14 SFINAE overloads compute the same three
cases).  `first` has type `tT` and `second` has type `tU`:
- same signedness: `first < second` (built-in comparison);
- `T` signed, `U` unsigned: `(first < 0) || (UT(first) < second)`;
- `T` unsigned, `U` signed: `(second >= 0) && (first < UU(second))`. -/
def cmp_less (tT tU : CppIntType) (first second : Int) : Bool :=
  if tT.signed = tU.signed then
    cppLess tT tU first second
  else if tT.signed then
    decide (first < 0) || cppLess (unsignedOf tT) tU ((unsignedOf tT).convert first) second
  else
    decide (second ≥ 0) && cppLess tT (unsignedOf tU) first ((unsignedOf tU).convert second)

/-- Embedding of `bit7z::cmp_greater`: `cmp_less(second, first)`. -/
def cmp_greater (tT tU : CppIntType) (first second : Int) : Bool :=
  cmp_less tU tT second first

/-- Embedding of `bit7z::cmp_greater_equal`: `!cmp_less(first, second)`. -/
def cmp_greater_equal (tT tU : CppIntType) (first second : Int) : Bool :=
  !cmp_less tT tU first second

/-! ## COM helpers: `is_com_type` and `make_com` (src/internal/util.hpp, lines 139-148) -/

/-- Modelled from the spec: the COM-style reference-counting boilerplate
(`CMyUnknownImp`, `CMyComPtr` from `internal/com.hpp`) exists only for ABI
compatibility with the wrapped engine and is not part of `src/`.  C++ classes
are modelled as identifiers with an inheritance relation `derives`
(`std::is_base_of`), with a distinguished identifier for `CMyUnknownImp`. -/
structure ClassHierarchy where
  derives : Nat → Nat → Bool
  unknownImp : Nat

/-- Embedding of `bit7z::is_com_type< T, I >`:
`std::is_base_of< CMyUnknownImp, T >::value && std::is_base_of< I, T >::value`. -/
def is_com_type (H : ClassHierarchy) (T I : Nat) : Bool :=
  H.derives T H.unknownImp && H.derives T I

/-- A heap object as produced by `new T(args...)`: its dynamic class and the
constructor arguments it was built from. -/
structure ComObject where
  classId : Nat
  ctorArgs : List Nat
deriving DecidableEq

/-- Modelled from the spec: `CMyComPtr< I >`, the engine's reference-counting
smart pointer (not in `src/`): an interface identifier together with the held
address (`0` is the null pointer) and the pointed-to object. -/
structure CMyComPtr where
  iface : Nat
  addr : Nat
  pointee : ComObject
deriving DecidableEq

/-- Modelled from the spec: `new T(args...)`.  `ctorOk` tells whether the
constructor call succeeds (otherwise it throws and no pointer is produced);
on success the object lives at a fresh nonzero address. -/
def newObject (T : Nat) (args : List Nat) (ctorOk : Bool) (freshAddr : Nat) :
    Option (Nat × ComObject) :=
  if ctorOk then some (freshAddr + 1, { classId := T, ctorArgs := args }) else none

/-- Embedding of `bit7z::make_com< T, I >`:
`CMyComPtr< I >( new T( std::forward< Args >( args )... ) )`.  The
`std::enable_if< is_com_type< T, I >::value, I >` constraint of the C++
signature is the hypothesis `hT`: the function cannot be invoked without it. -/
def make_com (H : ClassHierarchy) (T I : Nat) (args : List Nat)
    (_hT : is_com_type H T I = true) (ctorOk : Bool) (freshAddr : Nat) :
    Option CMyComPtr :=
  (newObject T args ctorOk freshAddr).map fun p =>
    { iface := I, addr := p.fst, pointee := p.snd }

/-! ## String/path encoding shims (src/internal/util.hpp, lines 38-73)

On non-Windows configurations `path_to_tstring` is `path.u8string()` and
`tstring_to_path` is `fs::path{ str }`. -/

/-- A Unicode scalar value: below `0x110000` and not a surrogate. -/
def isScalar (c : Nat) : Prop := c < 0x110000 ∧ (c < 0xD800 ∨ 0xE000 ≤ c)

instance (c : Nat) : Decidable (isScalar c) := by
  unfold isScalar
  infer_instance

/-- Modelled from the spec: an `fs::path` (C++ standard library, not in
`src/`) is modelled as its sequence of Unicode scalar values. -/
abbrev FsPath : Type := List Nat

/-- Every code point of the path is a Unicode scalar value. -/
def validPath (p : FsPath) : Prop := ∀ c ∈ p, isScalar c

instance (p : FsPath) : Decidable (validPath p) := by
  unfold validPath
  infer_instance

/-- UTF-8 encoding of one Unicode scalar value (1 to 4 bytes). -/
def utf8EncodeChar (c : Nat) : List Nat :=
  if c < 0x80 then [c]
  else if c < 0x800 then [0xC0 + c / 0x40, 0x80 + c % 0x40]
  else if c < 0x10000 then
    [0xE0 + c / 0x1000, 0x80 + (c / 0x40) % 0x40, 0x80 + c % 0x40]
  else
    [0xF0 + c / 0x40000, 0x80 + (c / 0x1000) % 0x40, 0x80 + (c / 0x40) % 0x40, 0x80 + c % 0x40]

/-- UTF-8 encoding of a sequence of code points. -/
def utf8Encode : List Nat → List Nat
  | [] => []
  | c :: cs => utf8EncodeChar c ++ utf8Encode cs

/-- Whether a byte is a UTF-8 continuation byte (`10xxxxxx`). -/
def isCont (b : Nat) : Bool := decide (0x80 ≤ b) && decide (b < 0xC0)

/-- UTF-8 decoding, one byte at a time: `need` is the number of continuation
bytes still expected for the current code point and `acc` its accumulated
high bits.  A leading byte selects the sequence length; each continuation
byte shifts the accumulator; a malformed or truncated sequence yields
`none`. -/
def utf8DecodeAux : Nat → Nat → List Nat → Option (List Nat)
  | 0, _, [] => some []
  | _ + 1, _, [] => none
  | need, acc, b :: bs =>
    if need = 0 then
      if b < 0x80 then (utf8DecodeAux 0 0 bs).map fun cs => b :: cs
      else if b < 0xC0 then none
      else if b < 0xE0 then utf8DecodeAux 1 (b - 0xC0) bs
      else if b < 0xF0 then utf8DecodeAux 2 (b - 0xE0) bs
      else if b < 0xF8 then utf8DecodeAux 3 (b - 0xF0) bs
      else none
    else if isCont b then
      if need = 1 then (utf8DecodeAux 0 0 bs).map fun cs => (acc * 0x40 + (b - 0x80)) :: cs
      else utf8DecodeAux (need - 1) (acc * 0x40 + (b - 0x80)) bs
    else none

/-- UTF-8 decoding of a byte sequence into code points; `none` on a
malformed prefix byte or missing continuation byte. -/
def utf8Decode (bs : List Nat) : Option (List Nat) := utf8DecodeAux 0 0 bs

/-- Embedding of `bit7z::path_to_tstring` on non-Windows configurations:
`return path.u8string();` — the UTF-8 byte representation of the path. -/
def path_to_tstring (p : FsPath) : List Nat := utf8Encode p

/-- Embedding of `bit7z::tstring_to_path` on non-Windows configurations:
`return fs::path{ str };` — the tstring is parsed back (as UTF-8) into a
path; a malformed byte sequence yields no path. -/
def tstring_to_path (s : List Nat) : Option FsPath := utf8Decode s

/-! ## `BitArchiveReader` interface contracts

Modelled from the spec: the reader implementation itself is not under `src/`
(only `tests/src/test_bitarchivereader.cpp` exercises it).  The spec describes
the wrapper as adapting a fixed set of engine interface contracts — open
archive, enumerate items, test — and mapping engine error codes to
language-level failures (`BitException`).  The engine is an opaque
collaborator: it is a parameter turning archive bytes into opened archive
data, shared by the three construction modes (path, buffer, stream). -/

/-- One archived item's metadata as enumerated by the reader. -/
structure BitArchiveItem where
  name : String
  path : String
  size : Nat
  isDir : Bool
  isEncrypted : Bool
  crc : Nat
deriving DecidableEq

/-- Modelled from the spec: the data the engine produces when it opens an
archive — the item list, whether the archived data is intact (testing an
item succeeds exactly when it is), and whether the format stores path
metadata. -/
structure BitInputArchiveData where
  items : List BitArchiveItem
  intact : Bool
  storesPathMetadata : Bool
deriving DecidableEq

/-- How the reader was constructed: from a filesystem path, an in-memory
buffer, or an input stream. -/
inductive ArchiveSource where
  | fsPath (p : String)
  | buffer
  | stream
deriving DecidableEq

/-- The language-level failures thrown by the wrapper (`BitException`). -/
inductive BitException where
  | indexOutOfRange
  | dataError
deriving DecidableEq

/-- Modelled from the spec: a successfully opened `BitArchiveReader` — the
construction source plus the opened archive data from the engine. -/
structure BitArchiveReader where
  source : ArchiveSource
  archive : BitInputArchiveData
deriving DecidableEq

/-- `BitArchiveReader` constructed from a filesystem path: the file's bytes
(via the filesystem `fsys`) are opened by the engine; the path is recorded. -/
def openFromPath (engine : List Nat → BitInputArchiveData)
    (fsys : String → List Nat) (p : String) : BitArchiveReader :=
  { source := .fsPath p, archive := engine (fsys p) }

/-- `BitArchiveReader` constructed from an in-memory buffer. -/
def openFromBuffer (engine : List Nat → BitInputArchiveData)
    (buf : List Nat) : BitArchiveReader :=
  { source := .buffer, archive := engine buf }

/-- `BitArchiveReader` constructed from an input stream whose readable
content is `streamBytes`. -/
def openFromStream (engine : List Nat → BitInputArchiveData)
    (streamBytes : List Nat) : BitArchiveReader :=
  { source := .stream, archive := engine streamBytes }

/-- `itemsCount()`: number of items in the archive. -/
def BitArchiveReader.itemsCount (r : BitArchiveReader) : Nat :=
  r.archive.items.length

/-- `items()`: the vector of item metadata. -/
def BitArchiveReader.items (r : BitArchiveReader) : List BitArchiveItem :=
  r.archive.items

/-- `filesCount()`: number of non-folder items. -/
def BitArchiveReader.filesCount (r : BitArchiveReader) : Nat :=
  (r.archive.items.filter fun it => !it.isDir).length

/-- `foldersCount()`: number of folder items. -/
def BitArchiveReader.foldersCount (r : BitArchiveReader) : Nat :=
  (r.archive.items.filter fun it => it.isDir).length

/-- `archivePath()`: the construction path, or the empty string for buffer
and stream sources. -/
def BitArchiveReader.archivePath (r : BitArchiveReader) : String :=
  match r.source with
  | .fsPath p => p
  | .buffer => ""
  | .stream => ""

/-- `test()`: succeeds exactly on intact archive data; an engine data error
is mapped to a `BitException`. -/
def BitArchiveReader.test (r : BitArchiveReader) : Except BitException Unit :=
  if r.archive.intact then .ok () else .error .dataError

/-- `testItem(index)`: an out-of-range index throws `BitException`
immediately; otherwise the item's data is tested, which succeeds exactly
when the archive data is intact. -/
def BitArchiveReader.testItem (r : BitArchiveReader) (index : Nat) :
    Except BitException Unit :=
  if r.itemsCount ≤ index then .error .indexOutOfRange
  else if r.archive.intact then .ok () else .error .dataError

/-- `find(path)`: position of the first item with the given in-archive path
(`cend()`, i.e. `itemsCount()`, when there is none). -/
def BitArchiveReader.find (r : BitArchiveReader) (p : String) : Nat :=
  r.archive.items.findIdx fun it => it.path == p

/-- `cend()`: the past-the-end iterator position. -/
def BitArchiveReader.cend (r : BitArchiveReader) : Nat :=
  r.itemsCount

/-- `contains(path)`: whether some item has the given in-archive path,
i.e. `find(path) != cend()`. -/
def BitArchiveReader.contains (r : BitArchiveReader) (p : String) : Bool :=
  decide (r.find p ≠ r.cend)

/-! ## Concrete instances (mirroring the single-file test fixture) -/

/-- The `clouds.jpg` item of the single-file test fixture. -/
def sampleItem : BitArchiveItem :=
  { name := "clouds.jpg", path := "clouds.jpg", size := 478025
    isDir := false, isEncrypted := false, crc := 1357 }

/-- An intact opened archive holding the sample item. -/
def sampleArchive : BitInputArchiveData :=
  { items := [sampleItem], intact := true, storesPathMetadata := true }

/-- A reader opened from a filesystem path on the sample archive. -/
def sampleReader : BitArchiveReader :=
  { source := .fsPath "clouds.jpg.7z", archive := sampleArchive }

/-- A concrete engine: every byte sequence opens to the sample archive. -/
def sampleEngine : List Nat → BitInputArchiveData := fun _ => sampleArchive

/-- A concrete filesystem: every path holds the bytes `[55, 122]`. -/
def sampleFs : String → List Nat := fun _ => [55, 122]

/-- A concrete class hierarchy where class `1` derives from everything. -/
def sampleHierarchy : ClassHierarchy :=
  { derives := fun t _ => decide (t = 1), unknownImp := 0 }

/-- A concrete path holding a 1-, a 2-, a 3- and a 4-byte code point. -/
def samplePath : FsPath := [0x41, 0xE9, 0x4E2D, 0x1F600]

/-! ## Theorems -/

/-- C4: `check_overflow(position, offset)` returns `true` exactly when the
mathematical sum `position + offset` is outside the `int64_t` range, and the
two subtractions it evaluates (`INT64_MAX - offset` when `offset > 0`,
`INT64_MIN - offset` when `offset < 0`) themselves stay inside the
`int64_t` range, so the function never overflows. -/
theorem check_overflow_correct (position offset : Int)
    (hp : isInt64 position) (ho : isInt64 offset) :
    (check_overflow position offset = true ↔ ¬ isInt64 (position + offset)) ∧
    (0 < offset → isInt64 (int64Max - offset)) ∧
    (offset < 0 → isInt64 (int64Min - offset)) := by
  unfold check_overflow isInt64 int64Max int64Min at *
  refine ⟨?_, by omega, by omega⟩
  simp only [Bool.or_eq_true, Bool.and_eq_true, decide_eq_true_eq,
    gt_iff_lt, not_and, not_le, not_lt]
  omega

/-- Closed instance of `check_overflow_correct` at `position = 1`,
`offset = int64Max`. -/
theorem check_overflow_correct_witness :
    isInt64 1 ∧ isInt64 int64Max ∧
    ((check_overflow 1 int64Max = true ↔ ¬ isInt64 (1 + int64Max)) ∧
     (0 < int64Max → isInt64 (int64Max - int64Max)) ∧
     (int64Max < 0 → isInt64 (int64Min - int64Max))) :=
  ⟨by decide, by decide, check_overflow_correct 1 int64Max (by decide) (by decide)⟩

set_option maxHeartbeats 1000000 in
/-- C5: for every combination of signed and unsigned integer types and all
values `a`, `b` of those types, `cmp_less a b` returns `true` exactly when
the mathematical value of `a` is strictly below that of `b` — no
wrap-around from the implicit conversions; moreover `cmp_greater a b`
equals `cmp_less b a` and `cmp_greater_equal a b` is the negation of
`cmp_less a b`. -/
theorem cmp_less_correct (tT tU : CppIntType) (a b : Int)
    (ha : inRange tT a) (hb : inRange tU b) :
    (cmp_less tT tU a b = decide (a < b)) ∧
    (cmp_greater tT tU a b = cmp_less tU tT b a) ∧
    (cmp_greater_equal tT tU a b = !cmp_less tT tU a b) := by
  refine ⟨?_, rfl, rfl⟩
  rcases tT with ⟨sT, wT⟩
  rcases tU with ⟨sU, wU⟩
  unfold inRange CppIntType.minVal CppIntType.maxVal at ha hb
  cases sT <;> cases sU <;> cases wT <;> cases wU <;>
    · simp only [CppWidth.bits] at ha hb
      norm_num at ha hb
      rw [Bool.eq_iff_iff]
      simp [cmp_less, cppLess, promote, commonType, unsignedOf, CppIntType.convert,
        CppWidth.bits]
      omega

/-- Closed instance of `cmp_less_correct` comparing `int64_t` value `-1`
with `uint64_t` value `0`. -/
theorem cmp_less_correct_witness :
    inRange { signed := true, width := .w64 } (-1) ∧
    inRange { signed := false, width := .w64 } 0 ∧
    ((cmp_less { signed := true, width := .w64 } { signed := false, width := .w64 }
        (-1) 0 = decide ((-1 : Int) < 0)) ∧
     (cmp_greater { signed := true, width := .w64 } { signed := false, width := .w64 }
        (-1) 0 =
      cmp_less { signed := false, width := .w64 } { signed := true, width := .w64 }
        0 (-1)) ∧
     (cmp_greater_equal { signed := true, width := .w64 } { signed := false, width := .w64 }
        (-1) 0 =
      !cmp_less { signed := true, width := .w64 } { signed := false, width := .w64 }
        (-1) 0)) :=
  ⟨by decide, by decide,
   cmp_less_correct { signed := true, width := .w64 } { signed := false, width := .w64 }
     (-1) 0 (by decide) (by decide)⟩

/-- C1: for a successfully opened intact archive, `testItem index` throws a
`BitException` exactly when `index ≥ itemsCount`; in particular
`testItem itemsCount` always throws, and `testItem index` completes without
throwing for every `index < itemsCount`. -/
theorem testItem_throws_iff_out_of_range (r : BitArchiveReader)
    (h : r.archive.intact = true) :
    (∀ index, (∃ e, r.testItem index = .error e) ↔ r.itemsCount ≤ index) ∧
    (∃ e, r.testItem r.itemsCount = .error e) ∧
    (∀ index, index < r.itemsCount → r.testItem index = .ok ()) := by
  unfold BitArchiveReader.testItem
  refine ⟨fun index => ⟨?_, fun hge => ⟨.indexOutOfRange, by rw [if_pos hge]⟩⟩,
    ⟨.indexOutOfRange, by rw [if_pos (Nat.le_refl _)]⟩,
    fun index hi => by rw [if_neg (Nat.not_le.mpr hi), if_pos h]⟩
  rintro ⟨e, he⟩
  by_contra hlt
  rw [if_neg hlt, if_pos h] at he
  exact Except.noConfusion he

/-- Closed instance of `testItem_throws_iff_out_of_range` on the sample
reader. -/
theorem testItem_throws_iff_out_of_range_witness :
    sampleReader.archive.intact = true ∧
    ((∀ index, (∃ e, sampleReader.testItem index = .error e) ↔
        sampleReader.itemsCount ≤ index) ∧
     (∃ e, sampleReader.testItem sampleReader.itemsCount = .error e) ∧
     (∀ index, index < sampleReader.itemsCount →
        sampleReader.testItem index = .ok ())) :=
  ⟨rfl, testItem_throws_iff_out_of_range sampleReader rfl⟩

/-- C3: the enumeration of a successfully opened archive is internally
consistent: `items()` has size `itemsCount()`, and `itemsCount()` equals
`filesCount()` plus `foldersCount()`. -/
theorem items_enumeration_consistent (r : BitArchiveReader) :
    r.items.length = r.itemsCount ∧
    r.itemsCount = r.filesCount + r.foldersCount := by
  refine ⟨rfl, ?_⟩
  unfold BitArchiveReader.itemsCount BitArchiveReader.filesCount
    BitArchiveReader.foldersCount
  induction r.archive.items with
  | nil => rfl
  | cons hd tl ih =>
    by_cases h : hd.isDir = true <;> simp [List.filter_cons, h] <;> omega

/-- C7: `test()` completes without throwing on every successfully opened
intact archive, whatever the construction mode and format. -/
theorem test_succeeds_on_intact (r : BitArchiveReader)
    (h : r.archive.intact = true) :
    r.test = .ok () := by
  unfold BitArchiveReader.test
  rw [if_pos h]

/-- Closed instance of `test_succeeds_on_intact` on the sample reader. -/
theorem test_succeeds_on_intact_witness :
    sampleReader.archive.intact = true ∧ sampleReader.test = .ok () :=
  ⟨rfl, test_succeeds_on_intact sampleReader rfl⟩

/-- C8: for an opened archive whose format stores path metadata, lookup
agrees with enumeration: every enumerated item's path is `contains`-ed and
`find` on it differs from `cend()`. -/
theorem contains_find_agree (r : BitArchiveReader)
    (_hfmt : r.archive.storesPathMetadata = true)
    (it : BitArchiveItem) (hmem : it ∈ r.items) :
    r.contains it.path = true ∧ r.find it.path ≠ r.cend := by
  have hlt : r.find it.path < r.itemsCount :=
    List.findIdx_lt_length_of_exists ⟨it, hmem, by simp⟩
  refine ⟨?_, Nat.ne_of_lt hlt⟩
  simp only [BitArchiveReader.contains, BitArchiveReader.cend,
    decide_eq_true_eq]
  exact Nat.ne_of_lt hlt

/-- Closed instance of `contains_find_agree` on the sample reader and its
item. -/
theorem contains_find_agree_witness :
    sampleReader.archive.storesPathMetadata = true ∧
    sampleItem ∈ sampleReader.items ∧
    (sampleReader.contains sampleItem.path = true ∧
     sampleReader.find sampleItem.path ≠ sampleReader.cend) :=
  ⟨rfl, by simp [sampleReader, sampleArchive, BitArchiveReader.items],
   contains_find_agree sampleReader rfl sampleItem
     (by simp [sampleReader, sampleArchive, BitArchiveReader.items])⟩

/-- C9: `archivePath()` returns the construction path for a reader opened
from a filesystem path and the empty string for readers opened from a
buffer or a stream. -/
theorem archivePath_reflects_source (engine : List Nat → BitInputArchiveData)
    (fsys : String → List Nat) (p : String) (buf streamBytes : List Nat) :
    (openFromPath engine fsys p).archivePath = p ∧
    (openFromBuffer engine buf).archivePath = "" ∧
    (openFromStream engine streamBytes).archivePath = "" :=
  ⟨rfl, rfl, rfl⟩

/-- C2: opening the same archive bytes from a path, a buffer, or a stream
yields the same `itemsCount`, `filesCount`, `foldersCount`, the same item
metadata (names, paths, sizes, encryption flags, CRCs) and the same
outcomes of `test()` and `testItem(index)` for every index. -/
theorem reader_construction_modes_equivalent
    (engine : List Nat → BitInputArchiveData) (fsys : String → List Nat)
    (p : String) (buf streamBytes : List Nat)
    (hbuf : fsys p = buf) (hstream : streamBytes = buf) :
    ((openFromPath engine fsys p).itemsCount = (openFromBuffer engine buf).itemsCount ∧
     (openFromPath engine fsys p).itemsCount = (openFromStream engine streamBytes).itemsCount) ∧
    ((openFromPath engine fsys p).filesCount = (openFromBuffer engine buf).filesCount ∧
     (openFromPath engine fsys p).filesCount = (openFromStream engine streamBytes).filesCount) ∧
    ((openFromPath engine fsys p).foldersCount = (openFromBuffer engine buf).foldersCount ∧
     (openFromPath engine fsys p).foldersCount = (openFromStream engine streamBytes).foldersCount) ∧
    ((openFromPath engine fsys p).items = (openFromBuffer engine buf).items ∧
     (openFromPath engine fsys p).items = (openFromStream engine streamBytes).items) ∧
    ((openFromPath engine fsys p).test = (openFromBuffer engine buf).test ∧
     (openFromPath engine fsys p).test = (openFromStream engine streamBytes).test) ∧
    (∀ index,
      (openFromPath engine fsys p).testItem index = (openFromBuffer engine buf).testItem index ∧
      (openFromPath engine fsys p).testItem index = (openFromStream engine streamBytes).testItem index) := by
  subst hbuf
  subst hstream
  exact ⟨⟨rfl, rfl⟩, ⟨rfl, rfl⟩, ⟨rfl, rfl⟩, ⟨rfl, rfl⟩, ⟨rfl, rfl⟩,
    fun index => ⟨rfl, rfl⟩⟩

/-- Closed instance of `reader_construction_modes_equivalent` on the sample
engine, filesystem and bytes. -/
theorem reader_construction_modes_equivalent_witness :
    sampleFs "a.7z" = [55, 122] ∧
    (((openFromPath sampleEngine sampleFs "a.7z").itemsCount = (openFromBuffer sampleEngine [55, 122]).itemsCount ∧
      (openFromPath sampleEngine sampleFs "a.7z").itemsCount = (openFromStream sampleEngine [55, 122]).itemsCount) ∧
     ((openFromPath sampleEngine sampleFs "a.7z").filesCount = (openFromBuffer sampleEngine [55, 122]).filesCount ∧
      (openFromPath sampleEngine sampleFs "a.7z").filesCount = (openFromStream sampleEngine [55, 122]).filesCount) ∧
     ((openFromPath sampleEngine sampleFs "a.7z").foldersCount = (openFromBuffer sampleEngine [55, 122]).foldersCount ∧
      (openFromPath sampleEngine sampleFs "a.7z").foldersCount = (openFromStream sampleEngine [55, 122]).foldersCount) ∧
     ((openFromPath sampleEngine sampleFs "a.7z").items = (openFromBuffer sampleEngine [55, 122]).items ∧
      (openFromPath sampleEngine sampleFs "a.7z").items = (openFromStream sampleEngine [55, 122]).items) ∧
     ((openFromPath sampleEngine sampleFs "a.7z").test = (openFromBuffer sampleEngine [55, 122]).test ∧
      (openFromPath sampleEngine sampleFs "a.7z").test = (openFromStream sampleEngine [55, 122]).test) ∧
     (∀ index,
       (openFromPath sampleEngine sampleFs "a.7z").testItem index = (openFromBuffer sampleEngine [55, 122]).testItem index ∧
       (openFromPath sampleEngine sampleFs "a.7z").testItem index = (openFromStream sampleEngine [55, 122]).testItem index)) :=
  ⟨rfl, reader_construction_modes_equivalent sampleEngine sampleFs "a.7z"
    [55, 122] [55, 122] rfl rfl⟩

/-- Decoding after an encoded code point peels off exactly that code
point. -/
theorem utf8Decode_encodeChar (c : Nat) (h1 : c < 0x110000) (rest : List Nat) :
    utf8DecodeAux 0 0 (utf8EncodeChar c ++ rest) =
      (utf8DecodeAux 0 0 rest).map fun cs => c :: cs := by
  unfold utf8EncodeChar
  by_cases hc1 : c < 0x80
  · rw [if_pos hc1]
    conv_lhs => rw [utf8DecodeAux.eq_def]
    dsimp only [List.cons_append, List.nil_append]
    rw [if_pos rfl, if_pos hc1]
  · rw [if_neg hc1]
    by_cases hc2 : c < 0x800
    · rw [if_pos hc2]
      conv_lhs => rw [utf8DecodeAux.eq_def]
      dsimp only [List.cons_append, List.nil_append]
      rw [if_pos rfl, if_neg (by omega), if_neg (by omega), if_pos (by omega)]
      conv_lhs => rw [utf8DecodeAux.eq_def]
      dsimp only
      rw [if_neg (by omega),
        if_pos (by simp only [isCont, Bool.and_eq_true, decide_eq_true_eq]; omega),
        if_pos rfl]
      have hval : (0xC0 + c / 0x40 - 0xC0) * 0x40 + (0x80 + c % 0x40 - 0x80) = c := by
        omega
      rw [hval]
    · rw [if_neg hc2]
      by_cases hc3 : c < 0x10000
      · rw [if_pos hc3]
        conv_lhs => rw [utf8DecodeAux.eq_def]
        dsimp only [List.cons_append, List.nil_append]
        rw [if_pos rfl, if_neg (by omega), if_neg (by omega), if_neg (by omega),
          if_pos (by omega)]
        conv_lhs => rw [utf8DecodeAux.eq_def]
        dsimp only
        rw [if_neg (by omega),
          if_pos (by simp only [isCont, Bool.and_eq_true, decide_eq_true_eq]; omega),
          if_neg (by omega)]
        conv_lhs => rw [utf8DecodeAux.eq_def]
        dsimp only
        rw [if_neg (by omega),
          if_pos (by simp only [isCont, Bool.and_eq_true, decide_eq_true_eq]; omega),
          if_pos rfl]
        have hval : ((0xE0 + c / 0x1000 - 0xE0) * 0x40 + (0x80 + c / 0x40 % 0x40 - 0x80)) *
            0x40 + (0x80 + c % 0x40 - 0x80) = c := by omega
        rw [hval]
      · rw [if_neg hc3]
        conv_lhs => rw [utf8DecodeAux.eq_def]
        dsimp only [List.cons_append, List.nil_append]
        rw [if_pos rfl, if_neg (by omega), if_neg (by omega), if_neg (by omega),
          if_neg (by omega), if_pos (by omega)]
        conv_lhs => rw [utf8DecodeAux.eq_def]
        dsimp only
        rw [if_neg (by omega),
          if_pos (by simp only [isCont, Bool.and_eq_true, decide_eq_true_eq]; omega),
          if_neg (by omega)]
        conv_lhs => rw [utf8DecodeAux.eq_def]
        dsimp only
        rw [if_neg (by omega),
          if_pos (by simp only [isCont, Bool.and_eq_true, decide_eq_true_eq]; omega),
          if_neg (by omega)]
        conv_lhs => rw [utf8DecodeAux.eq_def]
        dsimp only
        rw [if_neg (by omega),
          if_pos (by simp only [isCont, Bool.and_eq_true, decide_eq_true_eq]; omega),
          if_pos rfl]
        have hval : (((0xF0 + c / 0x40000 - 0xF0) * 0x40 +
            (0x80 + c / 0x1000 % 0x40 - 0x80)) * 0x40 +
            (0x80 + c / 0x40 % 0x40 - 0x80)) * 0x40 + (0x80 + c % 0x40 - 0x80) = c := by
          omega
        rw [hval]

/-- C6: on non-Windows configurations the path/string encoding shims
round-trip: for every filesystem path (a sequence of Unicode scalar
values), `tstring_to_path (path_to_tstring p)` parses the UTF-8
representation produced by `path_to_tstring` back to `p`. -/
theorem tstring_to_path_path_to_tstring (p : FsPath) (h : validPath p) :
    tstring_to_path (path_to_tstring p) = some p := by
  unfold tstring_to_path path_to_tstring utf8Decode
  induction p with
  | nil => rfl
  | cons c cs ih =>
    have hc := h c (List.mem_cons_self c cs)
    have hcs : validPath cs := fun x hx => h x (List.mem_cons_of_mem _ hx)
    simp only [utf8Encode]
    rw [utf8Decode_encodeChar c hc.1 (utf8Encode cs), ih hcs]
    rfl

/-- Closed instance of `tstring_to_path_path_to_tstring` on the sample
path. -/
theorem tstring_to_path_path_to_tstring_witness :
    validPath samplePath ∧
    tstring_to_path (path_to_tstring samplePath) = some samplePath :=
  ⟨by decide, tstring_to_path_path_to_tstring samplePath (by decide)⟩

/-- C10: `make_com<T, I>` is invocable only under the `is_com_type<T, I>`
constraint — which holds exactly when `T` derives from both `CMyUnknownImp`
and `I` — and whenever the `T(args...)` constructor call succeeds it returns
a non-null `CMyComPtr<I>` owning the freshly constructed `T(args...)`. -/
theorem make_com_spec (H : ClassHierarchy) (T I : Nat) (args : List Nat)
    (freshAddr : Nat) (hT : is_com_type H T I = true) :
    (H.derives T H.unknownImp = true ∧ H.derives T I = true) ∧
    (∀ ctorOk, ctorOk = true →
      ∃ ptr, make_com H T I args hT ctorOk freshAddr = some ptr ∧
        ptr.addr ≠ 0 ∧ ptr.iface = I ∧
        ptr.pointee = { classId := T, ctorArgs := args }) := by
  constructor
  · simpa only [is_com_type, Bool.and_eq_true] using hT
  · rintro _ rfl
    exact ⟨_, rfl, Nat.succ_ne_zero _, rfl, rfl⟩

/-- Closed instance of `make_com_spec` on the sample hierarchy. -/
theorem make_com_spec_witness :
    is_com_type sampleHierarchy 1 2 = true ∧
    ((sampleHierarchy.derives 1 sampleHierarchy.unknownImp = true ∧
      sampleHierarchy.derives 1 2 = true) ∧
     (∀ ctorOk, ctorOk = true →
       ∃ ptr, make_com sampleHierarchy 1 2 [3] rfl ctorOk 0 = some ptr ∧
         ptr.addr ≠ 0 ∧ ptr.iface = 2 ∧
         ptr.pointee = { classId := 1, ctorArgs := [3] })) :=
  ⟨rfl, make_com_spec sampleHierarchy 1 2 [3] 0 rfl⟩

end Bit7z
